import Mathlib

/-!
Shallow embedding of the cell/grid core of the Portable-spreadsheet
repository (files `portable_spreadsheet/cell.py` and
`portable_spreadsheet/spreadsheet.py`; the companion modules
`word_constructor.py`, `cell_type.py`, `cell_indices.py` are not part of
the provided sources, so the small pieces of them that the grid code
calls are modelled from the specification and marked as such).

Modelling conventions:
  * Python `float` values are modelled by `ℚ` (the spec sets numeric
    precision out of scope); `None` is modelled by `Option`.
  * Python exceptions (`ValueError`, `IndexError`, `TypeError`) are
    modelled by `Option`-valued functions returning `none`.
  * `np.log`, `np.exp` and the float power `**` are transcendental /
    partial on floats; they are carried as abstract function parameters
    `npLog npExp : ℚ → ℚ` and `npPow : ℚ → ℚ → ℚ` so that every theorem
    holds for every interpretation of them.
  * The embedding is pure: "the operand is not mutated" is inherent —
    every operation is a function building a new `Cell` value.
-/

/-- Model of `cell_type.py`'s `CellType` enumeration (two members, as used
throughout `cell.py`: `value_only` and `computational`). -/
inductive CellType where
  | value_only : CellType
  | computational : CellType
deriving DecidableEq

/-- Modelled from the spec: `cell_indices.py` is absent from the sources.
Per the spec a `CellIndices` describes the grid shape and per-axis labels
and is replaced wholesale (new value, new generation) on each resize; the
`generation` field models the per-generation identity of the object. -/
structure CellIndices where
  generation : ℕ
  rows : ℕ
  cols : ℕ
  rowsLabels : List String
  columnsLabels : List String
deriving DecidableEq

/-- Modelled from the spec: `word_constructor.py` is absent from the
sources.  A fragment ("word") is an immutable expression tree: per the
spec, each `WordConstructor` operation combines the operand fragments
into a new fragment (binary operators, `brackets`, the numeric wrappers
`logarithm` and `exponential`), a `reference` fragment holds only the
coordinate label of the referenced cell, a `constant` fragment holds the
literal value, and an aggregation fragment is parameterized by the
(start, end) coordinate pair and the operation name — never by the
member cells. `empty` stands for the fragment of a fresh cell with
neither value nor position (left unspecified by the spec). -/
inductive Word where
  | empty : Word
  | constant (value : Option ℚ) : Word
  | reference (row col : ℕ) : Word
  | add (a b : Word) : Word
  | subtract (a b : Word) : Word
  | multiply (a b : Word) : Word
  | divide (a b : Word) : Word
  | power (a b : Word) : Word
  | brackets (a : Word) : Word
  | logarithm (a : Word) : Word
  | exponential (a : Word) : Word
  | aggregate (startIdx endIdx : ℕ × ℕ) (op : String) : Word
deriving DecidableEq

/-- Model of the `Cell` object of `portable_spreadsheet/cell.py`: position
(`row`/`column`, both `None` for a free cell), optional numeric value,
cell type, the cell's `CellIndices` and its constructing words. -/
structure Cell where
  row : Option ℕ
  column : Option ℕ
  value : Option ℚ
  cellType : CellType
  cellIndices : CellIndices
  words : Word
deriving DecidableEq

/-- Modelled from the spec: `WordConstructor.init_from_new_cell` (absent
`word_constructor.py`). Per the spec, when no fragment is supplied one is
synthesized: a constant fragment for a cell carrying a value, a
coordinate fragment for an anchored valueless cell (`empty` otherwise,
unspecified by the spec). -/
def initFromNewCell (row column : Option ℕ) (value : Option ℚ) : Word :=
  match value with
  | some v => Word.constant (some v)
  | none =>
    match row, column with
    | some r, some c => Word.reference r c
    | _, _ => Word.empty

/-- `Cell.__init__` (cell.py lines 11-34): stores position, value, type and
indices and synthesizes the words when none are supplied.  The modelled
call sites always pass `row` and `column` both-or-neither, so the
`ValueError` branch guarding partial anchoring is unreachable and the
constructor is total here. -/
def Cell.init (row column : Option ℕ) (value : Option ℚ) (ci : CellIndices)
    (ct : CellType) (words : Option Word) : Cell :=
  { row := row, column := column, value := value, cellType := ct,
    cellIndices := ci, words := words.getD (initFromNewCell row column value) }

/-- `Cell.anchored` (cell.py lines 53-61): the cell is anchored when its
`row` is not `None`. -/
def Cell.anchored (c : Cell) : Bool :=
  c.row.isSome

namespace WordConstructor

/-- Modelled from the spec: `WordConstructor.reference` renders the
coordinate label of the referenced cell (reference compaction), never its
expression.  Only ever called on anchored cells. -/
def reference (c : Cell) : Word :=
  Word.reference (c.row.getD 0) (c.column.getD 0)

/-- Modelled from the spec: `WordConstructor.constant` renders the cell's
literal value. -/
def constant (c : Cell) : Word :=
  Word.constant c.value

end WordConstructor

/-- `Cell.word` (cell.py lines 36-51): the exposed fragment.  Anchored
cells expose their coordinate reference; a free computational cell its
constructing words; a free value cell a constant fragment. -/
def Cell.word (c : Cell) : Word :=
  if c.anchored then WordConstructor.reference c
  else
    match c.cellType with
    | CellType.computational => c.words
    | CellType.value_only => WordConstructor.constant c

namespace WordConstructor

/-- Modelled from the spec: the binary `WordConstructor` operations
combine the two operands' exposed fragments with the operator node. -/
def add (a b : Cell) : Word := Word.add a.word b.word

/-- Modelled from the spec: see `WordConstructor.add`. -/
def subtract (a b : Cell) : Word := Word.subtract a.word b.word

/-- Modelled from the spec: see `WordConstructor.add`. -/
def multiply (a b : Cell) : Word := Word.multiply a.word b.word

/-- Modelled from the spec: see `WordConstructor.add`. -/
def divide (a b : Cell) : Word := Word.divide a.word b.word

/-- Modelled from the spec: see `WordConstructor.add`. -/
def power (a b : Cell) : Word := Word.power a.word b.word

/-- Modelled from the spec: `brackets` wraps the operand fragment. -/
def brackets (a : Cell) : Word := Word.brackets a.word

/-- Modelled from the spec: `logarithm` wraps one operand fragment in the
grammar's logarithm function-call syntax. -/
def logarithm (a : Cell) : Word := Word.logarithm a.word

/-- Modelled from the spec: `exponential` wraps one operand fragment in
the grammar's exponential function-call syntax. -/
def exponential (a : Cell) : Word := Word.exponential a.word

/-- Modelled from the spec: an aggregation fragment derives only from the
(start, end) coordinate labels and the operation name, never from the
receiver word's content (source call: `subset[0]._constructing_words
.aggregation(start_idx, end_idx, grammar_method)`). -/
def aggregation (_w : Word) (startIdx endIdx : ℕ × ℕ) (op : String) : Word :=
  Word.aggregate startIdx endIdx op

end WordConstructor

/-- `Cell.add` (cell.py lines 91-104): a new free computational cell whose
value is the sum and whose indices are the right operand's; `none` models
the `TypeError` Python raises when either value is `None`. -/
def Cell.add (a b : Cell) : Option Cell :=
  match a.value, b.value with
  | some va, some vb =>
    some (Cell.init none none (some (va + vb)) b.cellIndices
      CellType.computational (some (WordConstructor.add a b)))
  | _, _ => none

/-- `Cell.subtract` (cell.py lines 106-119). -/
def Cell.subtract (a b : Cell) : Option Cell :=
  match a.value, b.value with
  | some va, some vb =>
    some (Cell.init none none (some (va - vb)) b.cellIndices
      CellType.computational (some (WordConstructor.subtract a b)))
  | _, _ => none

/-- `Cell.multiply` (cell.py lines 121-134). -/
def Cell.multiply (a b : Cell) : Option Cell :=
  match a.value, b.value with
  | some va, some vb =>
    some (Cell.init none none (some (va * vb)) b.cellIndices
      CellType.computational (some (WordConstructor.multiply a b)))
  | _, _ => none

/-- `Cell.divide` (cell.py lines 136-149); `va / vb` is exact rational
division (the `ZeroDivisionError` on a zero divisor is a float-domain
behaviour outside the rational model). -/
def Cell.divide (a b : Cell) : Option Cell :=
  match a.value, b.value with
  | some va, some vb =>
    some (Cell.init none none (some (va / vb)) b.cellIndices
      CellType.computational (some (WordConstructor.divide a b)))
  | _, _ => none

/-- `Cell.power` (cell.py lines 151-164); the float `**` is the abstract
parameter `npPow`. -/
def Cell.power (npPow : ℚ → ℚ → ℚ) (a b : Cell) : Option Cell :=
  match a.value, b.value with
  | some va, some vb =>
    some (Cell.init none none (some (npPow va vb)) b.cellIndices
      CellType.computational (some (WordConstructor.power a b)))
  | _, _ => none

/-- `Cell.reference` without the anchoring guard (cell.py lines 276-280):
the cell constructed once the guard has passed. -/
def Cell.referenceCell (other : Cell) : Cell :=
  Cell.init none none other.value other.cellIndices
    CellType.computational (some (WordConstructor.reference other))

/-- `Cell.reference` (cell.py lines 263-280): raises (`none`) unless
`other` is anchored. -/
def Cell.reference (other : Cell) : Option Cell :=
  if other.anchored then some (Cell.referenceCell other) else none

/-- `Cell.brackets` (cell.py lines 282-296): wraps the fragment, value
passes through. -/
def Cell.brackets (other : Cell) : Cell :=
  Cell.init none none other.value other.cellIndices
    CellType.computational (some (WordConstructor.brackets other))

/-- `Cell.logarithm` (cell.py lines 298-312): value `np.log(other.value)`
(abstract `npLog`), words `WordConstructor.logarithm(other)`; `none`
models the `TypeError` on a `None` value. -/
def Cell.logarithm (npLog : ℚ → ℚ) (other : Cell) : Option Cell :=
  match other.value with
  | some v =>
    some (Cell.init none none (some (npLog v)) other.cellIndices
      CellType.computational (some (WordConstructor.logarithm other)))
  | none => none

/-- `Cell.exponential` (cell.py lines 314-328): value `np.exp(other.value)`
(abstract `npExp`) — but the source builds the words with
`WordConstructor.logarithm(other)`, not `WordConstructor.exponential`;
the embedding reproduces that line faithfully. -/
def Cell.exponential (npExp : ℚ → ℚ) (other : Cell) : Option Cell :=
  match other.value with
  | some v =>
    some (Cell.init none none (some (npExp v)) other.cellIndices
      CellType.computational (some (WordConstructor.logarithm other)))
  | none => none

/-- `np.min` over a non-empty list of rationals (the empty case is
unreachable through `Cell._aggregate_fun`, which fails first). -/
def npMin (l : List ℚ) : ℚ :=
  match l with
  | [] => 0
  | x :: xs => xs.foldl min x

/-- `np.max` over a non-empty list of rationals. -/
def npMax (l : List ℚ) : ℚ :=
  match l with
  | [] => 0
  | x :: xs => xs.foldl max x

/-- `np.mean` over a list of rationals: sum divided by length. -/
def npMean (l : List ℚ) : ℚ :=
  l.sum / (l.length : ℚ)

/-- `Cell._aggregate_fun` (cell.py lines 247-261): applies the NumPy
reduction to the member values and takes the indices and the aggregation
words from the first member.  `none` models the Python failure on an
empty subset (`subset[0]` raises `IndexError`, `np.min`/`np.max` raise
`ValueError`) and on a member whose value is `None` (the reduction raises
`TypeError`). -/
def Cell.aggregateFun (startIdx endIdx : ℕ × ℕ) (subset : List Cell)
    (grammarMethod : String) (methodNp : List ℚ → ℚ) : Option Cell :=
  match subset, subset.mapM (fun c => c.value) with
  | c0 :: _, some vals =>
    some (Cell.init none none (some (methodNp vals)) c0.cellIndices
      CellType.computational
      (some (WordConstructor.aggregation c0.words startIdx endIdx
        grammarMethod)))
  | _, _ => none

/-- The grammar-method name passed by `Cell.sum`. -/
def sumMethodName : String := "sum"

/-- The grammar-method name passed by `Cell.product`. -/
def productMethodName : String := "product"

/-- The grammar-method name passed by `Cell.mean`. -/
def meanMethodName : String := "mean"

/-- The grammar-method name passed by `Cell.min`. -/
def minimumMethodName : String := "minimum"

/-- The grammar-method name passed by `Cell.max`. -/
def maximumMethodName : String := "maximum"

/-- `Cell.sum` (cell.py lines 217-221). -/
def Cell.sum (startIdx endIdx : ℕ × ℕ) (subset : List Cell) : Option Cell :=
  Cell.aggregateFun startIdx endIdx subset sumMethodName List.sum

/-- `Cell.product` (cell.py lines 223-227). -/
def Cell.product (startIdx endIdx : ℕ × ℕ) (subset : List Cell) :
    Option Cell :=
  Cell.aggregateFun startIdx endIdx subset productMethodName List.prod

/-- `Cell.mean` (cell.py lines 229-233). -/
def Cell.mean (startIdx endIdx : ℕ × ℕ) (subset : List Cell) : Option Cell :=
  Cell.aggregateFun startIdx endIdx subset meanMethodName npMean

/-- `Cell.min` (cell.py lines 235-239). -/
def Cell.min (startIdx endIdx : ℕ × ℕ) (subset : List Cell) : Option Cell :=
  Cell.aggregateFun startIdx endIdx subset minimumMethodName npMin

/-- `Cell.max` (cell.py lines 241-245). -/
def Cell.max (startIdx endIdx : ℕ × ℕ) (subset : List Cell) : Option Cell :=
  Cell.aggregateFun startIdx endIdx subset maximumMethodName npMax

/-- The grid of `spreadsheet.py`: the current `CellIndices` (held by value
— `__init__` and `expand_using_cell_indices` both `copy.deepcopy` it, see
the store model below for the aliasing side) and the 2-D sheet array. -/
structure Spreadsheet where
  cellIndices : CellIndices
  sheet : List (List Cell)
deriving DecidableEq

/-- `Spreadsheet._initialise_array` (spreadsheet.py lines 117-130): one
anchored empty cell per coordinate. -/
def initialiseArray (ci : CellIndices) : List (List Cell) :=
  (List.range ci.rows).map (fun r =>
    (List.range ci.cols).map (fun c =>
      Cell.init (some r) (some c) none ci CellType.value_only none))

/-- `Spreadsheet.__init__` (spreadsheet.py lines 40-64): deep-copies the
given indices (value semantics here) and initialises the array. -/
def Spreadsheet.init (ci : CellIndices) : Spreadsheet :=
  { cellIndices := ci, sheet := initialiseArray ci }

/-- A value assignable to a sheet slot (`T_cell_val`): a number or a
`Cell`. -/
inductive CellVal where
  | num (q : ℚ) : CellVal
  | cell (c : Cell) : CellVal

/-- `Spreadsheet._set_item` (spreadsheet.py lines 132-157) at an in-range
integer position: an anchored `Cell` is wrapped via `Cell.reference`
(which leaves the stored cell free — nothing anchors it); a free `Cell`
is deep-copied and anchored at `(x, y)`; a number makes a fresh anchored
value cell.  The slot is overwritten with the new cell. -/
def Spreadsheet.setItem (sp : Spreadsheet) (v : CellVal) (x y : ℕ) :
    Spreadsheet :=
  let newCell : Cell :=
    match v with
    | CellVal.cell c =>
      if c.anchored then Cell.referenceCell c
      else { c with row := some x, column := some y }
    | CellVal.num q =>
      Cell.init (some x) (some y) (some q) sp.cellIndices
        CellType.value_only none
  { sp with
    sheet := sp.sheet.set x ((sp.sheet.getD x []).set y newCell) }

/-- The cell stored at integer position (r, c), if any. -/
def Spreadsheet.cellAt (sp : Spreadsheet) (r c : ℕ) : Option Cell :=
  sp.sheet[r]?.bind (fun row => row[c]?)

/-- Python `int()` truncation (toward zero) of a rational. -/
def ratTrunc (x : ℚ) : ℤ :=
  Int.tdiv x.num (x.den : ℤ)

/-- Python list indexing `l[i]`: non-negative indices are direct,
negative indices count from the end, out-of-range raises (`none`). -/
def pyGet {α : Type} (l : List α) (i : ℤ) : Option α :=
  if 0 ≤ i then l[i.toNat]?
  else if 0 ≤ i + (l.length : ℤ) then l[(i + (l.length : ℤ)).toNat]?
  else none

/-- `Spreadsheet._get_item` (spreadsheet.py lines 159-173): coordinates
further than 1e-6 from their truncation raise `IndexError` (`none`);
otherwise the sheet is indexed with `int(x)`, `int(y)` using Python list
semantics (negative indices wrap, out-of-range raises). -/
def Spreadsheet.getItem (sp : Spreadsheet) (x y : ℚ) : Option Cell :=
  if 1 / 1000000 < |x - (ratTrunc x : ℚ)| ∨
      1 / 1000000 < |y - (ratTrunc y : ℚ)| then none
  else (pyGet sp.sheet (ratTrunc x)).bind (fun row => pyGet row (ratTrunc y))

/-- Modelled from the spec: `CellIndices.expand_size` (absent
`cell_indices.py`) returns a new `CellIndices` — a new generation — with
the requested rows and columns appended and the label arrays extended;
existing identities are preserved, only the bound grows. -/
def CellIndices.expandSize (ci : CellIndices) (newRows newCols : ℕ)
    (newRowsLabels newColumnsLabels : List String) : CellIndices :=
  { generation := ci.generation + 1,
    rows := ci.rows + newRows,
    cols := ci.cols + newCols,
    rowsLabels := ci.rowsLabels ++ newRowsLabels,
    columnsLabels := ci.columnsLabels ++ newColumnsLabels }

/-- A fresh empty cell `Cell(cell_indices=...)` as appended by
`expand_using_cell_indices`: no position, no value. -/
def freshCell (ci : CellIndices) : Cell :=
  Cell.init none none none ci CellType.value_only none

/-- `Spreadsheet.expand_using_cell_indices` (spreadsheet.py lines
384-409): replaces the indices with a deep copy of the argument, appends
fresh empty cells to each existing row up to the new column count, appends
whole fresh rows up to the new row count, and refreshes every cell's
`cell_indices` to the new generation. -/
def Spreadsheet.expandUsingCellIndices (sp : Spreadsheet)
    (ci : CellIndices) : Spreadsheet :=
  let oldRows := sp.cellIndices.rows
  let oldCols := sp.cellIndices.cols
  { cellIndices := ci,
    sheet := (List.range ci.rows).map (fun r =>
      (if r < oldRows then
        sp.sheet.getD r [] ++ List.replicate (ci.cols - oldCols)
          (freshCell ci)
      else
        List.replicate ci.cols (freshCell ci)).map
        (fun c => { c with cellIndices := ci })) }

/-- `Spreadsheet.expand` (spreadsheet.py lines 218-255): expand the
indices and resize through `expand_using_cell_indices`. -/
def Spreadsheet.expand (sp : Spreadsheet) (newRows newCols : ℕ)
    (newRowsLabels newColumnsLabels : List String) : Spreadsheet :=
  sp.expandUsingCellIndices
    (sp.cellIndices.expandSize newRows newCols newRowsLabels
      newColumnsLabels)

/-- Well-formedness of the sheet array: its dimensions agree with the
current indices' shape. -/
def Spreadsheet.wellFormed (sp : Spreadsheet) : Prop :=
  sp.sheet.length = sp.cellIndices.rows ∧
    ∀ row ∈ sp.sheet, row.length = sp.cellIndices.cols

/-- A heap of `CellIndices` objects, for stating the aliasing behaviour of
`copy.deepcopy` in `Spreadsheet.__init__` (line 54) and
`Spreadsheet.expand_using_cell_indices` (line 392).  An object is a slot
index into the store; mutation of the caller's object is an update of its
slot. -/
structure CIStore where
  data : List CellIndices

/-- The object held at reference `r`. -/
def CIStore.lookup (s : CIStore) (r : ℕ) : Option CellIndices :=
  s.data[r]?

/-- Allocate a fresh object: its reference is the previous store size, so
it differs from every reference valid before the allocation. -/
def CIStore.alloc (s : CIStore) (ci : CellIndices) : CIStore × ℕ :=
  (⟨s.data ++ [ci]⟩, s.data.length)

/-- `copy.deepcopy`: allocates a fresh object holding the same data. -/
def CIStore.deepcopy (s : CIStore) (r : ℕ) : CIStore × ℕ :=
  s.alloc ((s.lookup r).getD ⟨0, 0, 0, [], []⟩)

/-- In-place mutation of the object at reference `r`. -/
def CIStore.mutate (s : CIStore) (r : ℕ) (ci : CellIndices) : CIStore :=
  ⟨s.data.set r ci⟩

/-- The identity-relevant part of a `Spreadsheet`: which `CellIndices`
object its `_cell_indices` field points at. -/
structure SpreadsheetObj where
  ciRef : ℕ

/-- `Spreadsheet.__init__` line 54
(`self._cell_indices = copy.deepcopy(cell_indices)`) in the store model:
the sheet points at a freshly allocated deep copy, never at the caller's
object. -/
def Spreadsheet.initStore (s : CIStore) (r : ℕ) : CIStore × SpreadsheetObj :=
  let p := s.deepcopy r
  (p.1, ⟨p.2⟩)

/-- `Spreadsheet.expand_using_cell_indices` line 392
(`self._cell_indices = copy.deepcopy(cell_indices)`) in the store model:
identical deep-copy discipline. -/
def Spreadsheet.expandStore (s : CIStore) (_sp : SpreadsheetObj) (r : ℕ) :
    CIStore × SpreadsheetObj :=
  let p := s.deepcopy r
  (p.1, ⟨p.2⟩)

/-- The result of a binary `Cell` operation as the claims describe it: a
new free (`row`/`column` both `None`), computational cell whose value is
`v`. -/
def FreeComputationalWith (res : Option Cell) (v : ℚ) : Prop :=
  ∃ c, res = some c ∧ c.row = none ∧ c.column = none ∧
    c.cellType = CellType.computational ∧ c.value = some v

/-- The Python list index actually used by `l[i]`: direct when
non-negative, counted from the end (length added) when negative. -/
def normIdx (i : ℤ) (n : ℕ) : ℕ :=
  if 0 ≤ i then i.toNat else (i + (n : ℤ)).toNat

/-- A first-generation 2×2 `CellIndices` used by the concrete instances
below. -/
def ciA : CellIndices := ⟨0, 2, 2, [], []⟩

/-- A different-generation 3×3 `CellIndices`. -/
def ciB : CellIndices := ⟨1, 3, 3, [], []⟩

/-- An anchored value cell at (0, 0) holding 2. -/
def cellA : Cell :=
  Cell.init (some 0) (some 0) (some 2) ciA CellType.value_only none

/-- An anchored value cell at (0, 1) holding 5. -/
def cellB : Cell :=
  Cell.init (some 0) (some 1) (some 5) ciA CellType.value_only none

/-- An anchored value cell at (1, 1) holding 89. -/
def cellE : Cell :=
  Cell.init (some 1) (some 1) (some 89) ciA CellType.value_only none

/-- A free value cell holding 5 whose indices belong to the other
generation `ciB`. -/
def cellD : Cell :=
  Cell.init none none (some 5) ciB CellType.value_only none

/-- A free value cell holding 2. -/
def cellFree2 : Cell :=
  Cell.init none none (some 2) ciA CellType.value_only none

/-- The 2×2 sheet freshly initialised from `ciA`. -/
def spW : Spreadsheet := Spreadsheet.init ciA

/-- `spW` after `iloc[0, 0] = 1`. -/
def spW1 : Spreadsheet := spW.setItem (CellVal.num 1) 0 0

/-- The anchored value cell the previous assignment stores at (0, 0). -/
def storedA : Cell :=
  Cell.init (some 0) (some 0) (some 1) ciA CellType.value_only none

/-- `spW1` after `iloc[1, 1] = iloc[0, 0]` (assigning the anchored cell
stored at (0, 0)). -/
def spW2 : Spreadsheet := spW1.setItem (CellVal.cell storedA) 1 1

/-- A two-object store holding `ciA` and `ciB`. -/
def storeW : CIStore := ⟨[ciA, ciB]⟩

/-- C1: for cells `a` and `b` with both values present, each binary
operation returns a new free, computational cell whose value is the
native arithmetic combination of the operand values (the float power is
the abstract `npPow`).  The embedding is pure, so neither operand is
modified: the operands are taken and returned only by value. -/
theorem cell_binary_ops_spec (npPow : ℚ → ℚ → ℚ) (a b : Cell) (va vb : ℚ)
    (ha : a.value = some va) (hb : b.value = some vb) :
    FreeComputationalWith (Cell.add a b) (va + vb) ∧
    FreeComputationalWith (Cell.subtract a b) (va - vb) ∧
    FreeComputationalWith (Cell.multiply a b) (va * vb) ∧
    FreeComputationalWith (Cell.divide a b) (va / vb) ∧
    FreeComputationalWith (Cell.power npPow a b) (npPow va vb) := by
  have h1 : Cell.add a b = some (Cell.init none none (some (va + vb))
      b.cellIndices CellType.computational
      (some (WordConstructor.add a b))) := by
    simp only [Cell.add, ha, hb]
  have h2 : Cell.subtract a b = some (Cell.init none none (some (va - vb))
      b.cellIndices CellType.computational
      (some (WordConstructor.subtract a b))) := by
    simp only [Cell.subtract, ha, hb]
  have h3 : Cell.multiply a b = some (Cell.init none none (some (va * vb))
      b.cellIndices CellType.computational
      (some (WordConstructor.multiply a b))) := by
    simp only [Cell.multiply, ha, hb]
  have h4 : Cell.divide a b = some (Cell.init none none (some (va / vb))
      b.cellIndices CellType.computational
      (some (WordConstructor.divide a b))) := by
    simp only [Cell.divide, ha, hb]
  have h5 : Cell.power npPow a b = some (Cell.init none none
      (some (npPow va vb)) b.cellIndices CellType.computational
      (some (WordConstructor.power a b))) := by
    simp only [Cell.power, ha, hb]
  exact ⟨⟨_, h1, rfl, rfl, rfl, rfl⟩, ⟨_, h2, rfl, rfl, rfl, rfl⟩,
    ⟨_, h3, rfl, rfl, rfl, rfl⟩, ⟨_, h4, rfl, rfl, rfl, rfl⟩,
    ⟨_, h5, rfl, rfl, rfl, rfl⟩⟩

/-- Witness for C1 at the concrete cells `cellA` (value 2) and `cellB`
(value 5). -/
theorem cell_binary_ops_spec_witness :
    cellA.value = some 2 ∧ cellB.value = some 5 ∧
    (FreeComputationalWith (Cell.add cellA cellB) (2 + 5) ∧
      FreeComputationalWith (Cell.subtract cellA cellB) (2 - 5) ∧
      FreeComputationalWith (Cell.multiply cellA cellB) (2 * 5) ∧
      FreeComputationalWith (Cell.divide cellA cellB) (2 / 5) ∧
      FreeComputationalWith (Cell.power (fun x y => x * y) cellA cellB)
        ((fun x y => x * y) (2 : ℚ) 5)) :=
  ⟨rfl, rfl, cell_binary_ops_spec (fun x y => x * y) cellA cellB 2 5 rfl rfl⟩

/-- C4 counterexample: `cellA` and `cellD` carry `CellIndices` of
different generations (generation 0 versus 1, so the objects differ),
both values are present, and `Cell.add` nonetheless returns a result —
no `IncompatibleIndices` failure occurs anywhere in `cell.py`'s binary
operations. -/
theorem cell_add_ignores_indices_mismatch :
    cellA.cellIndices.generation = 0 ∧ cellD.cellIndices.generation = 1 ∧
    cellA.value = some 2 ∧ cellD.value = some 5 ∧
    (Cell.add cellA cellD).isSome = true ∧
    (Cell.add cellA cellD).map Cell.value = some (some (2 + 5)) :=
  ⟨rfl, rfl, rfl, rfl, rfl, rfl⟩

/-- C4 amended: combining cells whose `CellIndices` differ does not fail;
each binary operation silently returns a new free computational cell
that carries the right-hand operand's `cell_indices` (cell.py passes
`cell_indices=other.cell_indices` in every binary operation). -/
theorem cell_binary_ops_take_right_indices (npPow : ℚ → ℚ → ℚ) (a b : Cell)
    (va vb : ℚ) (ha : a.value = some va) (hb : b.value = some vb)
    (_hci : a.cellIndices ≠ b.cellIndices) :
    ((Cell.add a b).map Cell.cellIndices = some b.cellIndices ∧
      (Cell.add a b).isSome = true) ∧
    ((Cell.subtract a b).map Cell.cellIndices = some b.cellIndices ∧
      (Cell.subtract a b).isSome = true) ∧
    ((Cell.multiply a b).map Cell.cellIndices = some b.cellIndices ∧
      (Cell.multiply a b).isSome = true) ∧
    ((Cell.divide a b).map Cell.cellIndices = some b.cellIndices ∧
      (Cell.divide a b).isSome = true) ∧
    ((Cell.power npPow a b).map Cell.cellIndices = some b.cellIndices ∧
      (Cell.power npPow a b).isSome = true) := by
  simp only [Cell.add, Cell.subtract, Cell.multiply, Cell.divide,
    Cell.power, ha, hb, Option.map_some, Option.isSome_some]
  simp [Cell.init]

/-- Witness for the amended C4 at `cellA` (generation-0 indices) and
`cellD` (generation-1 indices). -/
theorem cell_binary_ops_take_right_indices_witness :
    cellA.value = some 2 ∧ cellD.value = some 5 ∧
    cellA.cellIndices.generation = 0 ∧ cellD.cellIndices.generation = 1 ∧
    (Cell.add cellA cellD).map Cell.cellIndices = some cellD.cellIndices :=
  ⟨rfl, rfl, rfl, rfl,
    (cell_binary_ops_take_right_indices (fun x y => x * y) cellA cellD 2 5
      rfl rfl (by decide)).1.1⟩

/-- C8: `Cell.reference` fails (raises `ValueError`, the spec's
`InvalidOperand`) on a non-anchored cell and produces no cell; on an
anchored cell it returns a new free computational cell mirroring the
operand's value whose fragment is the coordinate reference fragment —
the coordinate label, never the operand's own expression. -/
theorem reference_requires_anchored (b : Cell) :
    (b.anchored = false → Cell.reference b = none) ∧
    (∀ r c : ℕ, b.row = some r → b.column = some c →
      ∃ cl, Cell.reference b = some cl ∧ cl.value = b.value ∧
        cl.cellType = CellType.computational ∧ cl.row = none ∧
        cl.column = none ∧ cl.words = Word.reference r c) := by
  constructor
  · intro hfree
    simp [Cell.reference, hfree]
  · intro r c hr hc
    have hanch : b.anchored = true := by
      simp [Cell.anchored, hr]
    refine ⟨Cell.referenceCell b, by simp [Cell.reference, hanch], rfl, rfl,
      rfl, rfl, ?_⟩
    simp [Cell.referenceCell, Cell.init, WordConstructor.reference, hr, hc]

/-- Witness for C8: the free cell `cellFree2` cannot be referenced, while
the anchored cell `cellB` at (0, 1) can. -/
theorem reference_requires_anchored_witness :
    cellFree2.anchored = false ∧ Cell.reference cellFree2 = none ∧
    cellB.row = some 0 ∧ cellB.column = some 1 ∧
    (∃ cl, Cell.reference cellB = some cl ∧ cl.value = cellB.value ∧
      cl.cellType = CellType.computational ∧ cl.row = none ∧
      cl.column = none ∧ cl.words = Word.reference 0 1) :=
  ⟨rfl, (reference_requires_anchored cellFree2).1 rfl, rfl, rfl,
    (reference_requires_anchored cellB).2 0 1 rfl rfl⟩

/-- C6 evidence: `Cell.logarithm` wraps the operand's fragment in the
logarithm node as the spec says, but `Cell.exponential` — whose value is
`np.exp` of the operand value — builds its words with
`WordConstructor.logarithm` too (cell.py line 325), so its fragment is a
logarithm call, not an exponential call, and coincides with the fragment
`Cell.logarithm` produces on the same operand. -/
theorem exponential_words_are_logarithm_words :
    ∀ npLog npExp : ℚ → ℚ,
    (Cell.logarithm npLog cellFree2).map Cell.words =
      some (Word.logarithm (Word.constant (some 2))) ∧
    (Cell.exponential npExp cellFree2).map Cell.words =
      some (Word.logarithm (Word.constant (some 2))) ∧
    (Cell.exponential npExp cellFree2).map Cell.words =
      (Cell.logarithm npLog cellFree2).map Cell.words ∧
    (Cell.logarithm npLog cellFree2).map Cell.value = some (some (npLog 2)) ∧
    (Cell.exponential npExp cellFree2).map Cell.value =
      some (some (npExp 2)) := by
  intro npLog npExp
  exact ⟨rfl, rfl, rfl, rfl, rfl⟩

/-- C2 evidence at a concrete failing input: on the 2×2 sheet, assigning
the number 1 to slot (0, 0) stores the anchored cell `storedA`; then
assigning that anchored cell to slot (1, 1) goes through the
`Cell.reference` branch of `_set_item`, which anchors nothing — the cell
stored in grid slot (1, 1) has `row = None` and is Free, violating the
anchoring invariant (its words are the reference fragment of (0, 0)). -/
theorem set_item_anchored_reference_stays_free :
    spW1.cellAt 0 0 = some storedA ∧ storedA.anchored = true ∧
    (spW2.cellAt 1 1).map Cell.row = some none ∧
    (spW2.cellAt 1 1).map Cell.anchored = some false ∧
    (spW2.cellAt 1 1).map Cell.words = some (Word.reference 0 0) :=
  ⟨rfl, rfl, rfl, rfl, rfl⟩

/-- If every member of `subset` holds the values `vals` (all present),
then extracting all values succeeds with exactly `vals`. -/
theorem mapM_value_of_map_some (subset : List Cell) (vals : List ℚ)
    (h : subset.map Cell.value = vals.map some) :
    subset.mapM (fun c => c.value) = some vals := by
  induction subset generalizing vals with
  | nil =>
    cases vals with
    | nil => rfl
    | cons v vs => simp at h
  | cons c cs ih =>
    cases vals with
    | nil => simp at h
    | cons v vs =>
      simp only [List.map_cons, List.cons.injEq] at h
      obtain ⟨h1, h2⟩ := h
      rw [List.mapM_cons, h1, ih vs h2]
      rfl

/-- C3: each aggregation applied to the empty subset fails (the spec's
`EmptyAggregation`; in Python `subset[0]` raises `IndexError` and
`np.min`/`np.max` raise `ValueError` on an empty list), and applied to a
non-empty subset whose members hold the values `vals` it returns a cell
whose value is the corresponding reduction of `vals` (sum, product,
mean = sum/length, minimum, maximum). -/
theorem cell_aggregation_spec (startIdx endIdx : ℕ × ℕ) :
    (Cell.sum startIdx endIdx [] = none ∧
      Cell.product startIdx endIdx [] = none ∧
      Cell.mean startIdx endIdx [] = none ∧
      Cell.min startIdx endIdx [] = none ∧
      Cell.max startIdx endIdx [] = none) ∧
    (∀ (subset : List Cell) (vals : List ℚ),
      subset.map Cell.value = vals.map some → subset ≠ [] →
      ((Cell.sum startIdx endIdx subset).map Cell.value =
          some (some vals.sum) ∧
        (Cell.product startIdx endIdx subset).map Cell.value =
          some (some vals.prod) ∧
        (Cell.mean startIdx endIdx subset).map Cell.value =
          some (some (npMean vals)) ∧
        (Cell.min startIdx endIdx subset).map Cell.value =
          some (some (npMin vals)) ∧
        (Cell.max startIdx endIdx subset).map Cell.value =
          some (some (npMax vals)))) := by
  constructor
  · exact ⟨rfl, rfl, rfl, rfl, rfl⟩
  · intro subset vals hvals hne
    have hmap : subset.mapM (fun c => c.value) = some vals :=
      mapM_value_of_map_some subset vals hvals
    cases subset with
    | nil => exact absurd rfl hne
    | cons c0 cs =>
      refine ⟨?_, ?_, ?_, ?_, ?_⟩ <;>
      · simp only [Cell.sum, Cell.product, Cell.mean, Cell.min, Cell.max,
          Cell.aggregateFun, hmap]
        rfl

/-- Witness for C3 at the subset `[cellA, cellB, cellE]` holding the
values `[2, 5, 89]`. -/
theorem cell_aggregation_spec_witness :
    [cellA, cellB, cellE].map Cell.value = [(2 : ℚ), 5, 89].map some ∧
    (Cell.sum (0, 0) (0, 2) [cellA, cellB, cellE]).map Cell.value =
      some (some ([(2 : ℚ), 5, 89].sum)) ∧
    (Cell.min (0, 0) (0, 2) [cellA, cellB, cellE]).map Cell.value =
      some (some (npMin [(2 : ℚ), 5, 89])) :=
  ⟨rfl,
    ((cell_aggregation_spec (0, 0) (0, 2)).2 [cellA, cellB, cellE]
      [2, 5, 89] rfl (by simp)).1,
    (((cell_aggregation_spec (0, 0) (0, 2)).2 [cellA, cellB, cellE]
      [2, 5, 89] rfl (by simp)).2.2.2).1⟩

/-- C5: at an in-range position (r, c), `_set_item` stores: for a plain
number, a fresh anchored value cell holding that number; for an anchored
cell `b`, the reference cell `Cell.referenceCell b` (whose words are the
reference fragment of `b`'s coordinates and whose value mirrors
`b.value` — a live reference, not a copy of `b`'s expression); for a
free cell `f`, a copy of `f` anchored at (r, c).  The embedding is pure,
so the caller's original `f` is untouched — the stored cell is a new
value differing from `f` only in `row` and `column`. -/
theorem set_item_semantics (sp : Spreadsheet) (r c : ℕ)
    (hwf : sp.wellFormed) (hr : r < sp.cellIndices.rows)
    (hc : c < sp.cellIndices.cols) :
    (∀ q : ℚ, (sp.setItem (CellVal.num q) r c).cellAt r c =
      some (Cell.init (some r) (some c) (some q) sp.cellIndices
        CellType.value_only none)) ∧
    (∀ b : Cell, b.anchored = true →
      (sp.setItem (CellVal.cell b) r c).cellAt r c =
        some (Cell.referenceCell b) ∧
      (Cell.referenceCell b).value = b.value ∧
      (Cell.referenceCell b).words = WordConstructor.reference b) ∧
    (∀ f : Cell, f.anchored = false →
      (sp.setItem (CellVal.cell f) r c).cellAt r c =
        some { f with row := some r, column := some c }) := by
  have hr' : r < sp.sheet.length := by
    rw [hwf.1]
    exact hr
  obtain ⟨row, hrowSome⟩ : ∃ row, sp.sheet[r]? = some row :=
    ⟨_, List.getElem?_eq_getElem hr'⟩
  have hrowEq : sp.sheet.getD r [] = row := by
    rw [List.getD_eq_getElem?_getD, hrowSome]
    rfl
  have hc' : c < (sp.sheet.getD r []).length := by
    rw [hrowEq, hwf.2 row (List.getElem?_mem hrowSome)]
    exact hc
  have key : ∀ x : Cell,
      ((sp.sheet.set r ((sp.sheet.getD r []).set c x))[r]?).bind
        (fun row => row[c]?) = some x := by
    intro x
    rw [List.getElem?_set_self hr', Option.some_bind]
    exact List.getElem?_set_self hc'
  refine ⟨?_, ?_, ?_⟩
  · intro q
    exact key _
  · intro b hb
    refine ⟨?_, rfl, rfl⟩
    have hred : (sp.setItem (CellVal.cell b) r c).cellAt r c =
        ((sp.sheet.set r ((sp.sheet.getD r []).set c
          (Cell.referenceCell b)))[r]?).bind (fun row => row[c]?) := by
      unfold Spreadsheet.setItem Spreadsheet.cellAt
      simp only [hb, if_true]
    rw [hred]
    exact key _
  · intro f hf
    have hred : (sp.setItem (CellVal.cell f) r c).cellAt r c =
        ((sp.sheet.set r ((sp.sheet.getD r []).set c
          { f with row := some r, column := some c }))[r]?).bind
          (fun row => row[c]?) := by
      unfold Spreadsheet.setItem Spreadsheet.cellAt
      simp only [hf, Bool.false_eq_true, if_false]
    rw [hred]
    exact key _

/-- The concrete 2×2 sheet `spW` is well formed. -/
theorem spW_wellFormed : spW.wellFormed := by
  constructor
  · rfl
  · intro row hrow
    simp only [spW, Spreadsheet.init, initialiseArray, ciA] at hrow
    simp only [List.mem_map] at hrow
    obtain ⟨i, _, hi⟩ := hrow
    rw [← hi]
    simp [ciA, spW, Spreadsheet.init]

/-- Witness for C5 on the concrete 2×2 sheet `spW` at position (0, 1),
with the number 3, the anchored cell `cellA` and the free cell
`cellFree2`. -/
theorem set_item_semantics_witness :
    spW.wellFormed ∧
    (spW.setItem (CellVal.num 3) 0 1).cellAt 0 1 =
      some (Cell.init (some 0) (some 1) (some 3) spW.cellIndices
        CellType.value_only none) ∧
    (spW.setItem (CellVal.cell cellA) 0 1).cellAt 0 1 =
      some (Cell.referenceCell cellA) ∧
    (spW.setItem (CellVal.cell cellFree2) 0 1).cellAt 0 1 =
      some { cellFree2 with row := some 0, column := some 1 } :=
  have hwf : spW.wellFormed := spW_wellFormed
  ⟨hwf,
    (set_item_semantics spW 0 1 hwf (by decide) (by decide)).1 3,
    ((set_item_semantics spW 0 1 hwf (by decide) (by decide)).2.1 cellA
      rfl).1,
    (set_item_semantics spW 0 1 hwf (by decide) (by decide)).2.2 cellFree2
      rfl⟩

/-- Truncation of an integer-valued rational is that integer. -/
theorem ratTrunc_intCast (n : ℤ) : ratTrunc ((n : ℤ) : ℚ) = n := by
  simp only [ratTrunc, Rat.num_intCast, Rat.den_intCast]
  exact Int.tdiv_one n

/-- Python indexing inside the wrapped range
`-length ≤ i < length` hits the element at `normIdx i length`. -/
theorem pyGet_in_range {α : Type} (l : List α) (i : ℤ) (n : ℕ)
    (hlen : l.length = n) (h1 : -(n : ℤ) ≤ i) (h2 : i < (n : ℤ)) :
    pyGet l i = l[normIdx i n]? ∧ normIdx i n < n := by
  by_cases hi : 0 ≤ i
  · have hidx : normIdx i n = i.toNat := by
      simp [normIdx, hi]
    refine ⟨?_, ?_⟩
    · simp [pyGet, hi, hidx]
    · rw [hidx]
      omega
  · have hidx : normIdx i n = (i + (n : ℤ)).toNat := by
      simp [normIdx, hi]
    have hpos : 0 ≤ i + ((n : ℕ) : ℤ) := by
      omega
    refine ⟨?_, ?_⟩
    · simp only [pyGet, if_neg hi, hlen, if_pos hpos, hidx]
    · rw [hidx]
      omega

/-- Python indexing outside the wrapped range raises (`none`). -/
theorem pyGet_out_range {α : Type} (l : List α) (i : ℤ) (n : ℕ)
    (hlen : l.length = n) (h : (n : ℤ) ≤ i ∨ i < -(n : ℤ)) :
    pyGet l i = none := by
  cases h with
  | inl hge =>
    have hi : 0 ≤ i := by omega
    have : l.length ≤ i.toNat := by omega
    simp [pyGet, hi, List.getElem?_eq_none this]
  | inr hlt =>
    have hi : ¬ 0 ≤ i := by omega
    have hneg : ¬ 0 ≤ i + (l.length : ℤ) := by
      rw [hlen]
      omega
    simp [pyGet, hi, hneg]

/-- The tolerance test of `_get_item` passes on exact integers, reducing
`getItem` to pure Python list indexing. -/
theorem getItem_intCast (sp : Spreadsheet) (x y : ℤ) :
    sp.getItem ((x : ℤ) : ℚ) ((y : ℤ) : ℚ) =
      (pyGet sp.sheet x).bind (fun row => pyGet row y) := by
  unfold Spreadsheet.getItem
  rw [ratTrunc_intCast, ratTrunc_intCast]
  have hcond : ¬ (1 / 1000000 < |((x : ℤ) : ℚ) - ((x : ℤ) : ℚ)| ∨
      1 / 1000000 < |((y : ℤ) : ℚ) - ((y : ℤ) : ℚ)|) := by
    norm_num
  rw [if_neg hcond]

/-- C7 counterexample: on the 2×2 sheet, `iloc[-1, -1]` does not fail —
Python's negative indexing wraps around and `_get_item` returns the cell
anchored at (1, 1). -/
theorem get_item_negative_wraparound :
    (spW.getItem (-1) (-1)).map Cell.row = some (some 1) ∧
    (spW.getItem (-1) (-1)).map Cell.column = some (some 1) ∧
    (spW.getItem (-1) (-1)).isSome = true := by
  have hcast : ((-1 : ℤ) : ℚ) = (-1 : ℚ) := by norm_num
  have hget : spW.getItem (-1) (-1) =
      (pyGet spW.sheet (-1)).bind (fun row => pyGet row (-1)) := by
    rw [← hcast]
    exact getItem_intCast spW (-1) (-1)
  rw [hget]
  decide

/-- C7 amended: `_get_item` fails on coordinates further than 1e-6 from
an integer; for integer coordinates it fails only when the index is
at or beyond the row/column count or strictly below its negation —
negative coordinates inside `[-rows, 0)` (resp. `[-cols, 0)`) do not
fail but wrap Python-style and return the cell stored at the wrapped
position; non-negative in-range coordinates return the cell stored at
(r, c). -/
theorem get_item_semantics (sp : Spreadsheet) (hwf : sp.wellFormed) :
    (∀ x y : ℚ, (1 / 1000000 < |x - (ratTrunc x : ℚ)| ∨
        1 / 1000000 < |y - (ratTrunc y : ℚ)|) → sp.getItem x y = none) ∧
    (∀ x y : ℤ,
      ((-(sp.cellIndices.rows : ℤ) ≤ x ∧ x < (sp.cellIndices.rows : ℤ) ∧
        -(sp.cellIndices.cols : ℤ) ≤ y ∧ y < (sp.cellIndices.cols : ℤ)) →
        sp.getItem ((x : ℤ) : ℚ) ((y : ℤ) : ℚ) =
          sp.cellAt (normIdx x sp.cellIndices.rows)
            (normIdx y sp.cellIndices.cols) ∧
        (sp.cellAt (normIdx x sp.cellIndices.rows)
          (normIdx y sp.cellIndices.cols)).isSome = true) ∧
      (((sp.cellIndices.rows : ℤ) ≤ x ∨ x < -(sp.cellIndices.rows : ℤ) ∨
        (sp.cellIndices.cols : ℤ) ≤ y ∨ y < -(sp.cellIndices.cols : ℤ)) →
        sp.getItem ((x : ℤ) : ℚ) ((y : ℤ) : ℚ) = none)) := by
  constructor
  · intro x y h
    unfold Spreadsheet.getItem
    rw [if_pos h]
  · intro x y
    rw [getItem_intCast]
    have hlen : sp.sheet.length = sp.cellIndices.rows := hwf.1
    constructor
    · rintro ⟨hx1, hx2, hy1, hy2⟩
      obtain ⟨hpg, hlt⟩ :=
        pyGet_in_range sp.sheet x sp.cellIndices.rows hlen hx1 hx2
      have hlt' : normIdx x sp.cellIndices.rows < sp.sheet.length := by
        rw [hlen]
        exact hlt
      obtain ⟨row, hrowSome⟩ :
          ∃ row, sp.sheet[normIdx x sp.cellIndices.rows]? = some row :=
        ⟨_, List.getElem?_eq_getElem hlt'⟩
      have hrowlen : row.length = sp.cellIndices.cols :=
        hwf.2 row (List.getElem?_mem hrowSome)
      obtain ⟨hpg2, hlt2⟩ :=
        pyGet_in_range row y sp.cellIndices.cols hrowlen hy1 hy2
      have hlt2' : normIdx y sp.cellIndices.cols < row.length := by
        rw [hrowlen]
        exact hlt2
      constructor
      · rw [hpg, hrowSome, Option.some_bind, hpg2]
        unfold Spreadsheet.cellAt
        rw [hrowSome, Option.some_bind]
      · unfold Spreadsheet.cellAt
        rw [hrowSome, Option.some_bind, List.getElem?_eq_getElem hlt2']
        rfl
    · intro h
      have hxout : ((sp.cellIndices.rows : ℤ) ≤ x ∨
          x < -(sp.cellIndices.rows : ℤ)) →
          (pyGet sp.sheet x).bind (fun row => pyGet row y) = none := by
        intro hx
        rw [pyGet_out_range sp.sheet x sp.cellIndices.rows hlen hx]
        rfl
      have hyout : ((sp.cellIndices.cols : ℤ) ≤ y ∨
          y < -(sp.cellIndices.cols : ℤ)) →
          (pyGet sp.sheet x).bind (fun row => pyGet row y) = none := by
        intro hy
        by_cases hx : -(sp.cellIndices.rows : ℤ) ≤ x ∧
            x < (sp.cellIndices.rows : ℤ)
        · obtain ⟨hpg, hlt⟩ :=
            pyGet_in_range sp.sheet x sp.cellIndices.rows hlen hx.1 hx.2
          have hlt' : normIdx x sp.cellIndices.rows < sp.sheet.length := by
            rw [hlen]
            exact hlt
          rw [hpg, List.getElem?_eq_getElem hlt', Option.some_bind]
          exact pyGet_out_range _ y sp.cellIndices.cols
            (hwf.2 _ (List.getElem_mem hlt')) hy
        · push_neg at hx
          have hx' : (sp.cellIndices.rows : ℤ) ≤ x ∨
              x < -(sp.cellIndices.rows : ℤ) := by omega
          exact hxout hx'
      rcases h with h | h | h | h
      · exact hxout (Or.inl h)
      · exact hxout (Or.inr h)
      · exact hyout (Or.inl h)
      · exact hyout (Or.inr h)

/-- Witness for the amended C7 on the 2×2 sheet: the in-range access
(0, 1), the wrapped access (-1, 0) and the failing access (2, 0). -/
theorem get_item_semantics_witness :
    spW.wellFormed ∧
    spW.getItem (((0 : ℤ) : ℚ)) (((1 : ℤ) : ℚ)) =
      spW.cellAt (normIdx 0 spW.cellIndices.rows)
        (normIdx 1 spW.cellIndices.cols) ∧
    spW.getItem (((-1 : ℤ) : ℚ)) (((0 : ℤ) : ℚ)) =
      spW.cellAt (normIdx (-1) spW.cellIndices.rows)
        (normIdx 0 spW.cellIndices.cols) ∧
    spW.getItem (((2 : ℤ) : ℚ)) (((0 : ℤ) : ℚ)) = none :=
  ⟨spW_wellFormed,
    (((get_item_semantics spW spW_wellFormed).2 0 1).1 (by decide)).1,
    (((get_item_semantics spW spW_wellFormed).2 (-1) 0).1 (by decide)).1,
    ((get_item_semantics spW spW_wellFormed).2 2 0).2 (Or.inl (by decide))⟩

/-- Row `r` of the expanded sheet, for `r` inside the new row count:
an old row extended by fresh cells, or a wholly fresh row, with every
cell's indices refreshed. -/
theorem expand_sheet_row (sp : Spreadsheet) (ci : CellIndices) (r : ℕ)
    (hr : r < ci.rows) :
    (sp.expandUsingCellIndices ci).sheet[r]? =
      some ((if r < sp.cellIndices.rows then
        sp.sheet.getD r [] ++
          List.replicate (ci.cols - sp.cellIndices.cols) (freshCell ci)
      else List.replicate ci.cols (freshCell ci)).map
        (fun cl => { cl with cellIndices := ci })) := by
  unfold Spreadsheet.expandUsingCellIndices
  simp only [List.getElem?_map, List.getElem?_range hr]
  rfl

/-- Rows at or beyond the new row count do not exist in the expanded
sheet. -/
theorem expand_sheet_row_none (sp : Spreadsheet) (ci : CellIndices) (r : ℕ)
    (hr : ci.rows ≤ r) :
    (sp.expandUsingCellIndices ci).sheet[r]? = none := by
  unfold Spreadsheet.expandUsingCellIndices
  apply List.getElem?_eq_none
  simp only [List.length_map, List.length_range]
  exact hr

/-- C9: after `expand(n, m)` the shape grows to (rows+n, cols+m), every
pre-existing cell keeps its value, every newly appended slot holds a
fresh empty cell, and every cell of the expanded sheet carries the
grid's new-generation `CellIndices` (the refresh loop of
`expand_using_cell_indices`). -/
theorem expand_preserves_cells (sp : Spreadsheet) (hwf : sp.wellFormed)
    (n m : ℕ) (nrl ncl : List String) :
    (sp.expand n m nrl ncl).cellIndices.rows = sp.cellIndices.rows + n ∧
    (sp.expand n m nrl ncl).cellIndices.cols = sp.cellIndices.cols + m ∧
    (∀ r c : ℕ, r < sp.cellIndices.rows → c < sp.cellIndices.cols →
      ((sp.expand n m nrl ncl).cellAt r c).map Cell.value =
        (sp.cellAt r c).map Cell.value) ∧
    (∀ r c : ℕ, r < sp.cellIndices.rows + n → c < sp.cellIndices.cols + m →
      (sp.cellIndices.rows ≤ r ∨ sp.cellIndices.cols ≤ c) →
      (sp.expand n m nrl ncl).cellAt r c =
        some (freshCell (sp.expand n m nrl ncl).cellIndices)) ∧
    (∀ (r c : ℕ) (cell : Cell),
      (sp.expand n m nrl ncl).cellAt r c = some cell →
      cell.cellIndices = (sp.expand n m nrl ncl).cellIndices) := by
  unfold Spreadsheet.expand
  have hrows : (sp.cellIndices.expandSize n m nrl ncl).rows =
      sp.cellIndices.rows + n := rfl
  have hcols : (sp.cellIndices.expandSize n m nrl ncl).cols =
      sp.cellIndices.cols + m := rfl
  refine ⟨rfl, rfl, ?_, ?_, ?_⟩
  · intro r c hr hc
    have hrq : r < (sp.cellIndices.expandSize n m nrl ncl).rows := by
      omega
    have hrow := expand_sheet_row sp (sp.cellIndices.expandSize n m nrl ncl)
      r hrq
    rw [if_pos hr] at hrow
    have hr' : r < sp.sheet.length := by
      rw [hwf.1]
      exact hr
    obtain ⟨row, hrowSome⟩ : ∃ row, sp.sheet[r]? = some row :=
      ⟨_, List.getElem?_eq_getElem hr'⟩
    have hgetD : sp.sheet.getD r [] = row := by
      rw [List.getD_eq_getElem?_getD, hrowSome]
      rfl
    have hrowlen : row.length = sp.cellIndices.cols :=
      hwf.2 row (List.getElem?_mem hrowSome)
    have hc' : c < row.length := by
      rw [hrowlen]
      exact hc
    unfold Spreadsheet.cellAt
    rw [hrow, Option.some_bind, hgetD, List.getElem?_map,
      List.getElem?_append_left hc', List.getElem?_eq_getElem hc',
      hrowSome, Option.some_bind, List.getElem?_eq_getElem hc']
    rfl
  · intro r c hr hc hor
    have hrq : r < (sp.cellIndices.expandSize n m nrl ncl).rows := by
      omega
    have hrow := expand_sheet_row sp (sp.cellIndices.expandSize n m nrl ncl)
      r hrq
    by_cases hrold : r < sp.cellIndices.rows
    · rw [if_pos hrold] at hrow
      have hcold : sp.cellIndices.cols ≤ c := by
        rcases hor with h | h
        · omega
        · exact h
      have hr' : r < sp.sheet.length := by
        rw [hwf.1]
        exact hrold
      obtain ⟨row, hrowSome⟩ : ∃ row, sp.sheet[r]? = some row :=
        ⟨_, List.getElem?_eq_getElem hr'⟩
      have hgetD : sp.sheet.getD r [] = row := by
        rw [List.getD_eq_getElem?_getD, hrowSome]
        rfl
      have hrowlen : row.length = sp.cellIndices.cols :=
        hwf.2 row (List.getElem?_mem hrowSome)
      unfold Spreadsheet.cellAt
      rw [hrow, Option.some_bind, hgetD, List.getElem?_map,
        List.getElem?_append_right (by rw [hrowlen]; exact hcold), hrowlen,
        List.getElem?_replicate]
      have hidx : c - sp.cellIndices.cols <
          (sp.cellIndices.expandSize n m nrl ncl).cols -
            sp.cellIndices.cols := by
        omega
      rw [if_pos hidx]
      rfl
    · rw [if_neg hrold] at hrow
      have hcq : c < (sp.cellIndices.expandSize n m nrl ncl).cols := by
        omega
      unfold Spreadsheet.cellAt
      rw [hrow, Option.some_bind, List.getElem?_map,
        List.getElem?_replicate, if_pos hcq]
      rfl
  · intro r c cell h
    by_cases hrq : r < (sp.cellIndices.expandSize n m nrl ncl).rows
    · have hrow := expand_sheet_row sp
        (sp.cellIndices.expandSize n m nrl ncl) r hrq
      unfold Spreadsheet.cellAt at h
      rw [hrow, Option.some_bind, List.getElem?_map] at h
      cases hL : (if r < sp.cellIndices.rows then
          sp.sheet.getD r [] ++
            List.replicate ((sp.cellIndices.expandSize n m nrl ncl).cols -
              sp.cellIndices.cols)
              (freshCell (sp.cellIndices.expandSize n m nrl ncl))
        else List.replicate (sp.cellIndices.expandSize n m nrl ncl).cols
          (freshCell (sp.cellIndices.expandSize n m nrl ncl)))[c]? with
      | none =>
        rw [hL] at h
        simp at h
      | some x =>
        rw [hL] at h
        simp only [Option.map_some', Option.some.injEq] at h
        rw [← h]
        rfl
    · have hnone := expand_sheet_row_none sp
        (sp.cellIndices.expandSize n m nrl ncl) r (le_of_not_lt hrq)
      unfold Spreadsheet.cellAt at h
      rw [hnone] at h
      simp at h

/-- Witness for C9: expanding the 2×2 sheet by two rows preserves the
value at (0, 1) and fills the new slot (2, 0) with a fresh empty cell. -/
theorem expand_preserves_cells_witness :
    spW.wellFormed ∧
    (spW.expand 2 0 [] []).cellIndices.rows = spW.cellIndices.rows + 2 ∧
    (spW.expand 2 0 [] []).cellIndices.cols = spW.cellIndices.cols + 0 ∧
    ((spW.expand 2 0 [] []).cellAt 0 1).map Cell.value =
      (spW.cellAt 0 1).map Cell.value ∧
    (spW.expand 2 0 [] []).cellAt 2 0 =
      some (freshCell (spW.expand 2 0 [] []).cellIndices) := by
  have h := expand_preserves_cells spW spW_wellFormed 2 0 [] []
  exact ⟨spW_wellFormed, h.1, h.2.1, h.2.2.1 0 1 (by decide) (by decide),
    h.2.2.2.1 2 0 (by decide) (by decide) (Or.inl (by decide))⟩

/-- C10: both `Spreadsheet.__init__` and `expand_using_cell_indices`
store a freshly allocated deep copy of the `CellIndices` argument, never
the argument itself: the sheet's reference differs from the caller's,
the copied data coincides, and mutating the caller's object afterwards
leaves the data the sheet's reference points at unchanged. -/
theorem cell_indices_deepcopied (s : CIStore) (r : ℕ)
    (h : r < s.data.length) :
    ((Spreadsheet.initStore s r).2.ciRef ≠ r ∧
      (Spreadsheet.initStore s r).1.lookup
        (Spreadsheet.initStore s r).2.ciRef = s.lookup r ∧
      ∀ ci : CellIndices,
        ((Spreadsheet.initStore s r).1.mutate r ci).lookup
          (Spreadsheet.initStore s r).2.ciRef = s.lookup r) ∧
    (∀ sp : SpreadsheetObj,
      (Spreadsheet.expandStore s sp r).2.ciRef ≠ r ∧
      (Spreadsheet.expandStore s sp r).1.lookup
        (Spreadsheet.expandStore s sp r).2.ciRef = s.lookup r ∧
      ∀ ci : CellIndices,
        ((Spreadsheet.expandStore s sp r).1.mutate r ci).lookup
          (Spreadsheet.expandStore s sp r).2.ciRef = s.lookup r) := by
  obtain ⟨d, hd⟩ : ∃ d, s.data[r]? = some d :=
    ⟨_, List.getElem?_eq_getElem h⟩
  have hl : s.lookup r = some d := hd
  have hconcat :
      (s.data ++ [(s.lookup r).getD ⟨0, 0, 0, [], []⟩])[s.data.length]? =
        some ((s.lookup r).getD ⟨0, 0, 0, [], []⟩) :=
    List.getElem?_concat_length _ _
  have hgetd : some ((s.lookup r).getD ⟨0, 0, 0, [], []⟩) = s.lookup r := by
    rw [hl]
    rfl
  have hne : r ≠ s.data.length := by omega
  have hsame :
      (s.data ++ [(s.lookup r).getD ⟨0, 0, 0, [], []⟩])[s.data.length]? =
        s.lookup r := by
    rw [hconcat, hgetd]
  have hmut : ∀ ci : CellIndices,
      ((s.data ++ [(s.lookup r).getD ⟨0, 0, 0, [], []⟩]).set r
        ci)[s.data.length]? = s.lookup r := by
    intro ci
    rw [List.getElem?_set_ne hne, hsame]
  refine ⟨⟨?_, hsame, hmut⟩, ?_⟩
  · intro heq
    have : s.data.length = r := heq
    omega
  · intro sp
    refine ⟨?_, hsame, hmut⟩
    intro heq
    have : s.data.length = r := heq
    omega

/-- Witness for C10 on the two-object store `storeW`: initialising a
sheet from the object at reference 0, then overwriting that object with
`ciB`, leaves the sheet's copied data equal to the original. -/
theorem cell_indices_deepcopied_witness :
    0 < storeW.data.length ∧
    (Spreadsheet.initStore storeW 0).1.lookup
      (Spreadsheet.initStore storeW 0).2.ciRef = storeW.lookup 0 ∧
    ((Spreadsheet.initStore storeW 0).1.mutate 0 ciB).lookup
      (Spreadsheet.initStore storeW 0).2.ciRef = storeW.lookup 0 :=
  ⟨by decide, (cell_indices_deepcopied storeW 0 (by decide)).1.2.1,
    (cell_indices_deepcopied storeW 0 (by decide)).1.2.2 ciB⟩
